import Mathlib

/-!
Shallow embedding of `src/Timer-PIC/timer_pic.c` (Simulador-PC): a
memory-mapped countdown timer, a PIC with mask/pending/EOI registers, and a
per-vector latency statistics collector (Welford).

Modelling conventions:
  * machine integers are `Nat` with explicit `% 2^w` where the C code can wrap
    (`uint64_t` increments, `uint64_t` subtraction); bit operations stay below
    `2^32` by construction or by hypothesis;
  * the C `long double` statistics accumulators are modelled as exact
    rationals `ℚ` — every claim below concerns which updates happen and which
    division is performed, not rounding;
  * the module-level globals (`timer`, `pic`, `global_cycles`) become one
    explicit state record threaded through the operations.
-/

/-- 2^32 - 1, the value of `~0u`; used for 32-bit complement `~x = mask32 ^^^ x`. -/
def mask32 : Nat := 4294967295

/-- 2^64, the modulus of `uint64_t` arithmetic. -/
def mod64 : Nat := 18446744073709551616

def TIMER_BASE : Nat := 0x10000000
def TIMER_SIZE : Nat := 0x100
def PIC_BASE : Nat := 0x10000F00
def PIC_SIZE : Nat := 0x100

def TIMER_OFF_CTRL : Nat := 0x00
def TIMER_OFF_PERIOD : Nat := 0x04
def TIMER_OFF_COUNT : Nat := 0x08
def TIMER_OFF_STATUS : Nat := 0x0C

def PIC_OFF_MASK : Nat := 0x00
def PIC_OFF_PENDING : Nat := 0x04
def PIC_OFF_EOI : Nat := 0x08

def VECTOR_TIMER : Nat := 32

/-- `struct TimerDevice` of timer_pic.c. -/
structure TimerDevice where
  enabled : Nat
  irq_enable : Nat
  period : Nat
  count : Nat
  status : Nat
  events_generated : Nat
deriving Repr, DecidableEq

/-- `struct PICDevice` of timer_pic.c; the four per-vector arrays of size 64
are modelled as functions from the index. -/
structure PICDevice where
  mask_bits : Nat
  pending_bits : Nat
  last_event_cycle : Nat → Nat
  samples_count : Nat → Nat
  samples_mean : Nat → ℚ
  samples_m2 : Nat → ℚ

/-- The module-level mutable state: `global_cycles`, `timer`, `pic`. -/
structure IoState where
  global_cycles : Nat
  timer : TimerDevice
  pic : PICDevice

/-- `in_range(addr, base, size)`. -/
def in_range (addr base size : Nat) : Bool :=
  decide (base ≤ addr) && decide (addr < base + size)

/-- `pic_signal_irq`: guard `vector >= 64`, then
`pending_bits |= 1u << (vector % 32); last_event_cycle[vector] = global_cycles`. -/
def pic_signal_irq (vector cycles : Nat) (p : PICDevice) : PICDevice :=
  if 64 ≤ vector then p
  else { p with
    pending_bits := p.pending_bits ||| (1 <<< (vector % 32)),
    last_event_cycle := fun i => if i = vector then cycles else p.last_event_cycle i }

/-- `pic_record_latency`: Welford update of count, mean and M2 for `vector`.
`samples_count` is `uint64_t`, hence the `% 2^64` on its increment. -/
def pic_record_latency (vector latency : Nat) (p : PICDevice) : PICDevice :=
  if 64 ≤ vector then p
  else
    let n : Nat := (p.samples_count vector + 1) % mod64
    let delta : ℚ := (latency : ℚ) - p.samples_mean vector
    let mean' : ℚ := p.samples_mean vector + delta / (n : ℚ)
    let delta2 : ℚ := (latency : ℚ) - mean'
    { p with
      samples_count := fun i => if i = vector then n else p.samples_count i,
      samples_mean := fun i => if i = vector then mean' else p.samples_mean i,
      samples_m2 := fun i => if i = vector then p.samples_m2 vector + delta * delta2
                             else p.samples_m2 i }

/-- `pic_ack`: guard `vector >= 32`; compute `latency = global_cycles -
event_cycle` (64-bit subtraction) and record it when `event_cycle != 0`;
finally clear the pending bit. The firing-cycle record is NOT cleared. -/
def pic_ack (vector cycles : Nat) (p : PICDevice) : PICDevice :=
  if 32 ≤ vector then p
  else
    let event_cycle := p.last_event_cycle vector
    let p' := if event_cycle ≠ 0 then
        pic_record_latency vector ((cycles + mod64 - event_cycle) % mod64) p
      else p
    { p' with pending_bits := p'.pending_bits &&& (mask32 ^^^ (1 <<< vector)) }

/-- `timer_tick` acting on the timer and (through `pic_signal_irq`) the PIC;
`cycles` is the already-incremented `global_cycles`. -/
def timer_tick (cycles : Nat) (t : TimerDevice) (p : PICDevice) :
    TimerDevice × PICDevice :=
  if t.enabled = 0 then (t, p)
  else if t.period = 0 then (t, p)
  else if t.count = 0 then
    ({ t with
        events_generated := (t.events_generated + 1) % mod64,
        status := 1,
        count := t.period },
     if t.irq_enable ≠ 0 then pic_signal_irq (VECTOR_TIMER % 32) cycles p else p)
  else ({ t with count := t.count - 1 }, p)

/-- `pic_get_pending_vector`'s bit scan `__builtin_ctz`, fuel-bounded. -/
def ctzAux (fuel n : Nat) : Nat :=
  match fuel with
  | 0 => 0
  | f + 1 => if n % 2 = 1 then 0 else 1 + ctzAux f (n / 2)

def ctz32 (n : Nat) : Nat := ctzAux 32 n

/-- `pic_get_pending_vector`: `pending & ~mask`; `-1` when zero, else the
index of the lowest set bit. -/
def pic_get_pending_vector (p : PICDevice) : Int :=
  let pending := p.pending_bits &&& (mask32 ^^^ p.mask_bits)
  if pending = 0 then -1 else (ctz32 pending : Int)

/-- `mmio_read32`. -/
def mmio_read32 (s : IoState) (addr : Nat) : Nat :=
  if in_range addr TIMER_BASE TIMER_SIZE then
    let off := addr - TIMER_BASE
    if off = TIMER_OFF_CTRL then
      (s.timer.enabled &&& 1) ||| ((s.timer.irq_enable &&& 1) <<< 1)
    else if off = TIMER_OFF_PERIOD then s.timer.period
    else if off = TIMER_OFF_COUNT then s.timer.count
    else if off = TIMER_OFF_STATUS then s.timer.status
    else 0
  else if in_range addr PIC_BASE PIC_SIZE then
    let off := addr - PIC_BASE
    if off = PIC_OFF_MASK then s.pic.mask_bits
    else if off = PIC_OFF_PENDING then s.pic.pending_bits
    else if off = PIC_OFF_EOI then 0
    else 0
  else 0

/-- `mmio_write32`. PENDING is write-1-to-clear; EOI forwards `val & 0xFF`
to `pic_ack`. -/
def mmio_write32 (addr val : Nat) (s : IoState) : IoState :=
  if in_range addr TIMER_BASE TIMER_SIZE then
    let off := addr - TIMER_BASE
    if off = TIMER_OFF_CTRL then
      { s with timer := { s.timer with enabled := val &&& 1,
                                       irq_enable := (val >>> 1) &&& 1 } }
    else if off = TIMER_OFF_PERIOD then
      { s with timer := { s.timer with period := val } }
    else if off = TIMER_OFF_COUNT then
      { s with timer := { s.timer with count := val } }
    else if off = TIMER_OFF_STATUS then
      { s with timer := { s.timer with status := val &&& 0xFF } }
    else s
  else if in_range addr PIC_BASE PIC_SIZE then
    let off := addr - PIC_BASE
    if off = PIC_OFF_MASK then
      { s with pic := { s.pic with mask_bits := val } }
    else if off = PIC_OFF_PENDING then
      { s with pic := { s.pic with
          pending_bits := s.pic.pending_bits &&& (mask32 ^^^ val) } }
    else if off = PIC_OFF_EOI then
      { s with pic := pic_ack (val &&& 0xFF) s.global_cycles s.pic }
    else s
  else s

/-- `iosub_tick`: the clock increments first, then the timer ticks. -/
def iosub_tick (s : IoState) : IoState :=
  let c := (s.global_cycles + 1) % mod64
  let tp := timer_tick c s.timer s.pic
  { global_cycles := c, timer := tp.1, pic := tp.2 }

/-- `iosub_irq_pending`. -/
def iosub_irq_pending (s : IoState) : Int :=
  pic_get_pending_vector s.pic

/-- `iosub_ack_irq`: rejects only negative vectors; otherwise acks and
returns 1. The C `int` argument is modelled as `Int`. -/
def iosub_ack_irq (vector : Int) (s : IoState) : Nat × IoState :=
  if vector < 0 then (0, s)
  else (1, { s with pic := pic_ack vector.toNat s.global_cycles s.pic })

/-- `iosub_read32`. -/
def iosub_read32 (s : IoState) (addr : Nat) : Nat := mmio_read32 s addr

/-- `iosub_read8`: read the containing word and extract the byte. -/
def iosub_read8 (s : IoState) (addr : Nat) : Nat :=
  let base := addr &&& (mask32 ^^^ 3)
  let word := mmio_read32 s base
  let shift := (addr &&& 3) * 8
  (word >>> shift) &&& 0xFF

/-- `iosub_read16`. -/
def iosub_read16 (s : IoState) (addr : Nat) : Nat :=
  let base := addr &&& (mask32 ^^^ 3)
  let word := mmio_read32 s base
  let shift := (addr &&& 2) * 8
  (word >>> shift) &&& 0xFFFF

/-- `iosub_write8`: read-modify-write of the containing word. The `uint8_t`
parameter is `val & 0xFF`. -/
def iosub_write8 (addr val : Nat) (s : IoState) : IoState :=
  let base := addr &&& (mask32 ^^^ 3)
  let word := mmio_read32 s base
  let shift := (addr &&& 3) * 8
  let lane := 0xFF <<< shift
  let neww := (word &&& (mask32 ^^^ lane)) ||| ((val &&& 0xFF) <<< shift)
  mmio_write32 base neww s

/-- `iosub_write16`. -/
def iosub_write16 (addr val : Nat) (s : IoState) : IoState :=
  let base := addr &&& (mask32 ^^^ 3)
  let word := mmio_read32 s base
  let shift := (addr &&& 2) * 8
  let lane := 0xFFFF <<< shift
  let neww := (word &&& (mask32 ^^^ lane)) ||| ((val &&& 0xFFFF) <<< shift)
  mmio_write32 base neww s

/-- `iosub_write32`. -/
def iosub_write32 (addr val : Nat) (s : IoState) : IoState :=
  mmio_write32 addr val s

/-- `iosub_get_irq_stats`: (count, mean, variance). -/
def iosub_get_irq_stats (s : IoState) (vector : Nat) : Nat × ℚ × ℚ :=
  if 64 ≤ vector then (0, 0, 0)
  else
    (s.pic.samples_count vector,
     s.pic.samples_mean vector,
     if 1 < s.pic.samples_count vector then
       s.pic.samples_m2 vector / ((s.pic.samples_count vector - 1 : Nat) : ℚ)
     else 0)

/-- `iosub_init_default` / `timer_reset` / `pic_reset`: everything zeroed. -/
def iosub_init_default : IoState :=
  { global_cycles := 0,
    timer := { enabled := 0, irq_enable := 0, period := 0, count := 0,
               status := 0, events_generated := 0 },
    pic := { mask_bits := 0, pending_bits := 0,
             last_event_cycle := fun _ => 0, samples_count := fun _ => 0,
             samples_mean := fun _ => 0, samples_m2 := fun _ => 0 } }

/-! The mini-harness of timer_pic.c (BUILD_TEST_HARNESS): configure
PERIOD = 10 and CTRL = 0x3 via MMIO, then per cycle: tick, query
irq_pending, and acknowledge immediately when a vector is pending. -/

/-- One iteration of the harness loop. -/
def harnessStep (s : IoState) : IoState :=
  let s1 := iosub_tick s
  let v := iosub_irq_pending s1
  if 0 ≤ v then (iosub_ack_irq v s1).2 else s1

/-- State after `iosub_init_default` and the two configuration writes. -/
def harnessInit : IoState :=
  iosub_write32 (TIMER_BASE + TIMER_OFF_CTRL) 0x3
    (iosub_write32 (TIMER_BASE + TIMER_OFF_PERIOD) 10 iosub_init_default)

/-- State after running `n` iterations of the harness loop. -/
def harnessRun (n : Nat) : IoState := harnessStep^[n] harnessInit

/-- The action of `timer_tick` on the timer fields alone (the first component
of `timer_tick` depends on neither the clock nor the PIC). -/
def timer_tick_t (t : TimerDevice) : TimerDevice :=
  if t.enabled = 0 then t
  else if t.period = 0 then t
  else if t.count = 0 then
    { t with
        events_generated := (t.events_generated + 1) % mod64,
        status := 1,
        count := t.period }
  else { t with count := t.count - 1 }

lemma timer_tick_fst (c : Nat) (t : TimerDevice) (p : PICDevice) :
    (timer_tick c t p).1 = timer_tick_t t := by
  by_cases h1 : t.enabled = 0 <;> by_cases h2 : t.period = 0 <;>
    by_cases h3 : t.count = 0 <;> simp [timer_tick, timer_tick_t, h1, h2, h3]

lemma iosub_ack_irq_timer (v : Int) (s : IoState) :
    ((iosub_ack_irq v s).2).timer = s.timer := by
  unfold iosub_ack_irq
  split <;> rfl

lemma iosub_tick_timer (s : IoState) :
    (iosub_tick s).timer = timer_tick_t s.timer := by
  unfold iosub_tick
  simp [timer_tick_fst]

lemma harnessStep_timer (s : IoState) :
    (harnessStep s).timer = timer_tick_t s.timer := by
  simp only [harnessStep]
  split <;> simp [iosub_ack_irq_timer, iosub_tick_timer]

lemma harnessRun_timer (n : Nat) :
    (harnessRun n).timer = timer_tick_t^[n] harnessInit.timer := by
  induction n with
  | zero => rfl
  | succ n ih =>
    rw [harnessRun, Function.iterate_succ_apply', Function.iterate_succ_apply',
      ← harnessRun, harnessStep_timer, ih]

lemma harnessInit_timer :
    harnessInit.timer =
      { enabled := 1, irq_enable := 1, period := 10, count := 0,
        status := 0, events_generated := 0 } := by
  rfl

lemma timer_tick_t_fields (t : TimerDevice) (he : t.enabled = 1)
    (hp : t.period = 10) :
    (timer_tick_t t).enabled = 1 ∧ (timer_tick_t t).period = 10 ∧
    (timer_tick_t t).events_generated =
      (if t.count = 0 then (t.events_generated + 1) % mod64
       else t.events_generated) ∧
    (timer_tick_t t).count = (if t.count = 0 then 10 else t.count - 1) := by
  unfold timer_tick_t
  rw [he, hp]
  by_cases h0 : t.count = 0 <;> simp [h0]

/-- Closed form for the harness timer: after `n` loop iterations (for `n`
small enough that no 64-bit wrap occurs) the event counter is
`(n + 10) / 11` and the countdown is `10 - (n - 1) % 11`. -/
lemma harness_timer_closed_form (n : Nat) (hn : n ≤ 1000000) :
    (harnessRun n).timer.enabled = 1 ∧
    (harnessRun n).timer.period = 10 ∧
    (harnessRun n).timer.events_generated = (n + 10) / 11 ∧
    (harnessRun n).timer.count = (if n = 0 then 0 else 10 - (n - 1) % 11) := by
  rw [harnessRun_timer, harnessInit_timer]
  induction n with
  | zero => simp
  | succ n ih =>
    obtain ⟨he, hp, hev, hc⟩ := ih (by omega)
    rw [Function.iterate_succ_apply']
    obtain ⟨he', hp', hev', hc'⟩ := timer_tick_t_fields _ he hp
    by_cases h0 : (timer_tick_t^[n]
        ({ enabled := 1, irq_enable := 1, period := 10, count := 0,
           status := 0, events_generated := 0 } : TimerDevice)).count = 0
    · rw [if_pos h0] at hev' hc'
      rw [hc] at h0
      refine ⟨he', hp', ?_, ?_⟩
      · rw [hev', hev]
        simp only [mod64]
        by_cases hn0 : n = 0
        · subst hn0
          norm_num
        · rw [if_neg hn0] at h0
          omega
      · rw [hc', if_neg (by omega : ¬(n + 1 = 0))]
        by_cases hn0 : n = 0
        · subst hn0
          norm_num
        · rw [if_neg hn0] at h0
          omega
    · rw [if_neg h0] at hev' hc'
      rw [hc] at h0
      refine ⟨he', hp', ?_, ?_⟩
      · rw [hev', hev]
        by_cases hn0 : n = 0
        · subst hn0
          simp at h0
        · rw [if_neg hn0] at h0
          omega
      · rw [hc', hc, if_neg (by omega : ¬(n + 1 = 0))]
        by_cases hn0 : n = 0
        · subst hn0
          simp at h0
        · rw [if_neg hn0] at h0
          rw [if_neg hn0]
          omega

/-- C1, as stated, is false: the counter reloads to `period` and fires when
it reaches 0 again, so fires are `period + 1` tick calls apart; the concrete
scenario yields 91 events after 1000 ticks, not 100. -/
theorem C1_events_not_hundred :
    (harnessRun 1000).timer.events_generated ≠ 100 := by
  have h := (harness_timer_closed_form 1000 (by norm_num)).2.2.1
  omega

/-- C1 (amended): with PERIOD = 10 and CTRL = 0x3 after init_default,
running the harness loop (tick + immediate acknowledgment) gives
events_generated = (n + 10) / 11 after n tick calls — 91 after 1000 calls —
and a fire occurs at tick call c exactly when c ≡ 1 (mod 11), i.e. at calls
1, 12, 23, …, 991: consecutive firings are period + 1 = 11 calls apart. -/
theorem C1_firing_cadence :
    (harnessRun 1000).timer.events_generated = 91 ∧
    (∀ n, n ≤ 1000000 → (harnessRun n).timer.events_generated = (n + 10) / 11) ∧
    (∀ c, 1 ≤ c → c ≤ 1000000 →
      ((harnessRun c).timer.events_generated =
          (harnessRun (c - 1)).timer.events_generated + 1 ↔ c % 11 = 1)) := by
  have hf : ∀ n, n ≤ 1000000 →
      (harnessRun n).timer.events_generated = (n + 10) / 11 :=
    fun n hn => (harness_timer_closed_form n hn).2.2.1
  refine ⟨?_, hf, ?_⟩
  · rw [hf 1000 (by norm_num)]
  · intro c h1 h2
    rw [hf c h2, hf (c - 1) (by omega)]
    omega

/-- Witness for C1_firing_cadence: call 12 is a fire (12 ≡ 1 mod 11). -/
theorem C1_firing_cadence_witness :
    (1 ≤ 12 ∧ 12 ≤ 1000000) ∧
    ((harnessRun 12).timer.events_generated =
        (harnessRun (12 - 1)).timer.events_generated + 1 ↔ 12 % 11 = 1) :=
  ⟨⟨by norm_num, by norm_num⟩,
   C1_firing_cadence.2.2 12 (by norm_num) (by norm_num)⟩

lemma pic_ack_high (vector cycles : Nat) (p : PICDevice) (h : 32 ≤ vector) :
    pic_ack vector cycles p = p := by
  unfold pic_ack
  rw [if_pos h]

/-- C2, as stated, is false for vectors ≥ 32: `iosub_ack_irq` only rejects
negative vectors, so `ack_irq 32` returns 1 ("accepted"), not 0. -/
theorem C2_out_of_range_accepted :
    (iosub_ack_irq 32 iosub_init_default).1 = 1 ∧
    (iosub_ack_irq 32 iosub_init_default).1 ≠ 0 := by
  constructor <;> decide

/-- C2 (amended): `ack_irq` with a negative vector returns 0 ("not
accepted") and leaves the state unchanged; with a vector ≥ 32 it also leaves
the entire state unchanged, but returns 1 ("accepted"). -/
theorem C2_ack_bounds (s : IoState) (v : Int) :
    (v < 0 → iosub_ack_irq v s = (0, s)) ∧
    (32 ≤ v → iosub_ack_irq v s = (1, s)) := by
  constructor
  · intro hv
    unfold iosub_ack_irq
    rw [if_pos hv]
  · intro hv
    unfold iosub_ack_irq
    rw [if_neg (by omega : ¬v < 0),
      pic_ack_high v.toNat s.global_cycles s.pic (by omega : 32 ≤ v.toNat)]

/-- Witness for C2_ack_bounds at vectors -1 and 32 on the initial state. -/
theorem C2_ack_bounds_witness :
    ((-1 : Int) < 0 ∧ iosub_ack_irq (-1) iosub_init_default =
      (0, iosub_init_default)) ∧
    ((32 : Int) ≤ 32 ∧ iosub_ack_irq 32 iosub_init_default =
      (1, iosub_init_default)) :=
  ⟨⟨by decide, (C2_ack_bounds iosub_init_default (-1)).1 (by decide)⟩,
   ⟨by decide, (C2_ack_bounds iosub_init_default 32).2 (by decide)⟩⟩

/-- C4, as stated, is false: the bounds guard in `pic_signal_irq` is
`vector >= 64`, so signalling vector 32 (with the clock at 5) sets pending
bit 0 and records firing cycle 5 — the PIC state changes. -/
theorem C4_signal_32_changes_state :
    (pic_signal_irq 32 5 iosub_init_default.pic).pending_bits = 1 ∧
    iosub_init_default.pic.pending_bits = 0 ∧
    (pic_signal_irq 32 5 iosub_init_default.pic).last_event_cycle 32 = 5 := by
  refine ⟨by decide, rfl, by decide⟩

/-- C4 (amended): `pic_signal_irq` silently drops only vectors ≥ 64; for a
vector v with 32 ≤ v < 64 it sets pending bit v % 32 and records the current
cycle as v's firing cycle (mask and statistics unchanged). -/
theorem C4_signal_bounds (p : PICDevice) (v c : Nat) :
    (64 ≤ v → pic_signal_irq v c p = p) ∧
    (32 ≤ v → v < 64 →
      (pic_signal_irq v c p).pending_bits =
        p.pending_bits ||| (1 <<< (v % 32)) ∧
      (pic_signal_irq v c p).last_event_cycle v = c ∧
      (pic_signal_irq v c p).mask_bits = p.mask_bits ∧
      (∀ i, (pic_signal_irq v c p).samples_count i = p.samples_count i) ∧
      (∀ i, (pic_signal_irq v c p).samples_mean i = p.samples_mean i) ∧
      (∀ i, (pic_signal_irq v c p).samples_m2 i = p.samples_m2 i)) := by
  constructor
  · intro h
    unfold pic_signal_irq
    rw [if_pos h]
  · intro h1 h2
    unfold pic_signal_irq
    rw [if_neg (by omega : ¬64 ≤ v)]
    exact ⟨rfl, by simp, rfl, fun i => rfl, fun i => rfl, fun i => rfl⟩

/-- Witness for C4_signal_bounds at vectors 64 and 32. -/
theorem C4_signal_bounds_witness :
    (64 ≤ 64 ∧ pic_signal_irq 64 5 iosub_init_default.pic =
      iosub_init_default.pic) ∧
    (32 ≤ 32 ∧ 32 < 64 ∧
      (pic_signal_irq 32 5 iosub_init_default.pic).pending_bits =
        iosub_init_default.pic.pending_bits ||| (1 <<< (32 % 32))) :=
  ⟨⟨by norm_num, (C4_signal_bounds iosub_init_default.pic 64 5).1 (by norm_num)⟩,
   ⟨by norm_num, by norm_num,
    ((C4_signal_bounds iosub_init_default.pic 32 5).2 (by norm_num)
      (by norm_num)).1⟩⟩

lemma pic_record_latency_fields (v L : Nat) (p : PICDevice) (hv : v < 64) :
    (pic_record_latency v L p).samples_count v = (p.samples_count v + 1) % mod64 ∧
    (pic_record_latency v L p).last_event_cycle = p.last_event_cycle ∧
    (pic_record_latency v L p).pending_bits = p.pending_bits := by
  unfold pic_record_latency
  rw [if_neg (by omega : ¬64 ≤ v)]
  exact ⟨by simp, rfl, rfl⟩

lemma pic_ack_noev_fields (v c : Nat) (p : PICDevice) (hv : v < 32)
    (hev : p.last_event_cycle v = 0) :
    (pic_ack v c p).samples_count = p.samples_count ∧
    (pic_ack v c p).samples_mean = p.samples_mean ∧
    (pic_ack v c p).samples_m2 = p.samples_m2 ∧
    (pic_ack v c p).last_event_cycle = p.last_event_cycle := by
  unfold pic_ack
  rw [if_neg (by omega : ¬32 ≤ v)]
  simp [hev]

lemma pic_ack_ev_fields (v c : Nat) (p : PICDevice) (hv : v < 32)
    (hev : p.last_event_cycle v ≠ 0) :
    (pic_ack v c p).samples_count v = (p.samples_count v + 1) % mod64 ∧
    (pic_ack v c p).last_event_cycle = p.last_event_cycle := by
  have hrec := pic_record_latency_fields v
    ((c + mod64 - p.last_event_cycle v) % mod64) p (by omega)
  unfold pic_ack
  rw [if_neg (by omega : ¬32 ≤ v)]
  simp only [hev, ne_eq, not_false_eq_true, if_true]
  exact ⟨hrec.1, hrec.2.1⟩

/-- State right after the first harness tick: the timer has fired once and
vector 0's firing cycle is recorded as 1. -/
def c3_state : IoState := iosub_tick harnessInit

/-- C3's second half, as stated, is false: `pic_ack` never clears
`last_event_cycle`, so acknowledging vector 0 twice in a row after one
firing records two latency samples, not one. -/
theorem C3_second_ack_adds_sample :
    (iosub_ack_irq 0 c3_state).2.pic.samples_count 0 = 1 ∧
    (iosub_ack_irq 0 (iosub_ack_irq 0 c3_state).2).2.pic.samples_count 0 = 2 ∧
    (iosub_ack_irq 0 (iosub_ack_irq 0 c3_state).2).2.pic.samples_count 0 ≠ 1 := by
  refine ⟨by decide, by decide, by decide⟩

/-- C3 (amended): acknowledging an in-range vector whose firing-cycle record
is 0 ("never fired") changes no statistics state; but because the record is
not cleared by acknowledgment, each further ack of a vector with a nonzero
record adds another sample: two acks in a row add two samples. -/
theorem C3_ack_statistics (s : IoState) (v : Nat) (hv : v < 32) :
    (s.pic.last_event_cycle v = 0 →
      (iosub_ack_irq (v : Int) s).2.pic.samples_count = s.pic.samples_count ∧
      (iosub_ack_irq (v : Int) s).2.pic.samples_mean = s.pic.samples_mean ∧
      (iosub_ack_irq (v : Int) s).2.pic.samples_m2 = s.pic.samples_m2) ∧
    (s.pic.last_event_cycle v ≠ 0 → s.pic.samples_count v + 2 < mod64 →
      (iosub_ack_irq (v : Int) (iosub_ack_irq (v : Int) s).2).2.pic.samples_count v =
        s.pic.samples_count v + 2) := by
  have hneg : ¬((v : Int) < 0) := by omega
  have htn : (v : Int).toNat = v := Int.toNat_natCast v
  constructor
  · intro hev
    simp only [iosub_ack_irq, if_neg hneg, htn]
    obtain ⟨h1, h2, h3, _⟩ := pic_ack_noev_fields v s.global_cycles s.pic hv hev
    exact ⟨h1, h2, h3⟩
  · intro hev hlt
    simp only [iosub_ack_irq, if_neg hneg, htn]
    obtain ⟨h1, h2⟩ := pic_ack_ev_fields v s.global_cycles s.pic hv hev
    have hev2 : (pic_ack v s.global_cycles s.pic).last_event_cycle v ≠ 0 := by
      rw [h2]
      exact hev
    obtain ⟨h3, _⟩ :=
      pic_ack_ev_fields v s.global_cycles (pic_ack v s.global_cycles s.pic) hv hev2
    rw [h3, h1]
    simp only [mod64] at hlt ⊢
    omega

/-- Witness for C3_ack_statistics at vector 0 on the fired state. -/
theorem C3_ack_statistics_witness :
    (0 : Nat) < 32 ∧
    ((c3_state.pic.last_event_cycle 0 = 0 →
      (iosub_ack_irq ((0 : Nat) : Int) c3_state).2.pic.samples_count =
        c3_state.pic.samples_count ∧
      (iosub_ack_irq ((0 : Nat) : Int) c3_state).2.pic.samples_mean =
        c3_state.pic.samples_mean ∧
      (iosub_ack_irq ((0 : Nat) : Int) c3_state).2.pic.samples_m2 =
        c3_state.pic.samples_m2) ∧
     (c3_state.pic.last_event_cycle 0 ≠ 0 →
      c3_state.pic.samples_count 0 + 2 < mod64 →
      (iosub_ack_irq ((0 : Nat) : Int)
          (iosub_ack_irq ((0 : Nat) : Int) c3_state).2).2.pic.samples_count 0 =
        c3_state.pic.samples_count 0 + 2)) :=
  ⟨by decide, C3_ack_statistics c3_state 0 (by decide)⟩

lemma iosub_tick_parts (s : IoState) :
    iosub_tick s =
      { global_cycles := (s.global_cycles + 1) % mod64,
        timer := (timer_tick ((s.global_cycles + 1) % mod64) s.timer s.pic).1,
        pic := (timer_tick ((s.global_cycles + 1) % mod64) s.timer s.pic).2 } :=
  rfl

lemma timer_tick_fire (c : Nat) (t : TimerDevice) (p : PICDevice)
    (he : t.enabled ≠ 0) (hp : t.period ≠ 0) (hc : t.count = 0) :
    timer_tick c t p =
      ({ t with
          events_generated := (t.events_generated + 1) % mod64,
          status := 1,
          count := t.period },
       if t.irq_enable ≠ 0 then pic_signal_irq 0 c p else p) := by
  unfold timer_tick
  rw [if_neg he, if_neg hp, if_pos hc]
  norm_num [VECTOR_TIMER]

lemma pic_signal_irq_zero (c : Nat) (p : PICDevice) :
    pic_signal_irq 0 c p =
      { p with
        pending_bits := p.pending_bits ||| (1 <<< 0),
        last_event_cycle := fun i => if i = 0 then c else p.last_event_cycle i } := by
  unfold pic_signal_irq
  rw [if_neg (by omega : ¬64 ≤ 0)]

lemma pic_ack_same_cycle (p : PICDevice) (c : Nat) (hev : p.last_event_cycle 0 = c)
    (hc0 : c ≠ 0) :
    pic_ack 0 c p =
      { pic_record_latency 0 0 p with
        pending_bits :=
          (pic_record_latency 0 0 p).pending_bits &&& (mask32 ^^^ (1 <<< 0)) } := by
  unfold pic_ack
  rw [if_neg (by omega : ¬32 ≤ (0 : Nat))]
  simp only [hev, hc0, ne_eq, not_false_eq_true, if_true]
  rw [show c + mod64 - c = mod64 from by omega, Nat.mod_self]

/-- C10: with the timer enabled, a nonzero period and the counter at 0 (its
reset value), the very next tick call fires immediately: events_generated
is incremented, status bit 0 is set, the counter reloads to period, and if
irq_enable is set the PIC is signalled on vector 0 with the current cycle
recorded. -/
theorem C10_first_tick_fires (s : IoState) (he : s.timer.enabled ≠ 0)
    (hp : 0 < s.timer.period) (hc : s.timer.count = 0) :
    (iosub_tick s).timer.events_generated =
      (s.timer.events_generated + 1) % mod64 ∧
    (iosub_tick s).timer.status = 1 ∧
    Nat.testBit (iosub_tick s).timer.status 0 = true ∧
    (iosub_tick s).timer.count = s.timer.period ∧
    (s.timer.irq_enable ≠ 0 →
      (iosub_tick s).pic.pending_bits = s.pic.pending_bits ||| (1 <<< 0) ∧
      Nat.testBit (iosub_tick s).pic.pending_bits 0 = true ∧
      (iosub_tick s).pic.last_event_cycle 0 = (iosub_tick s).global_cycles) := by
  rw [iosub_tick_parts, timer_tick_fire _ _ _ he (by omega) hc]
  refine ⟨rfl, rfl, ?_, rfl, fun hirq => ?_⟩
  · show Nat.testBit 1 0 = true
    decide
  · rw [if_pos hirq, pic_signal_irq_zero]
    refine ⟨rfl, ?_, rfl⟩
    simp [Nat.testBit_or]

/-- Witness for C10_first_tick_fires on the configured harness state. -/
theorem C10_first_tick_fires_witness :
    (harnessInit.timer.enabled ≠ 0 ∧ 0 < harnessInit.timer.period ∧
      harnessInit.timer.count = 0) ∧
    (iosub_tick harnessInit).timer.events_generated =
      (harnessInit.timer.events_generated + 1) % mod64 ∧
    (iosub_tick harnessInit).timer.status = 1 ∧
    Nat.testBit (iosub_tick harnessInit).timer.status 0 = true ∧
    (iosub_tick harnessInit).timer.count = harnessInit.timer.period ∧
    (harnessInit.timer.irq_enable ≠ 0 →
      (iosub_tick harnessInit).pic.pending_bits =
        harnessInit.pic.pending_bits ||| (1 <<< 0) ∧
      Nat.testBit (iosub_tick harnessInit).pic.pending_bits 0 = true ∧
      (iosub_tick harnessInit).pic.last_event_cycle 0 =
        (iosub_tick harnessInit).global_cycles) :=
  ⟨⟨by decide, by decide, by decide⟩,
   C10_first_tick_fires harnessInit (by decide) (by decide) (by decide)⟩

/-- C9: within a tick call the clock increments before the timer logic, so
a firing during that call records the post-increment cycle value as vector
0's firing cycle, and an acknowledgment issued before any further tick
records a latency sample of exactly 0 (and clears pending bit 0). -/
theorem C9_same_cycle_latency_zero (s : IoState) (he : s.timer.enabled ≠ 0)
    (hp : s.timer.period ≠ 0) (hc : s.timer.count = 0)
    (hirq : s.timer.irq_enable ≠ 0) (hw : s.global_cycles + 1 < mod64) :
    (iosub_tick s).global_cycles = s.global_cycles + 1 ∧
    (iosub_tick s).pic.last_event_cycle 0 = s.global_cycles + 1 ∧
    (iosub_ack_irq 0 (iosub_tick s)).2.pic =
      { pic_record_latency 0 0 (iosub_tick s).pic with
        pending_bits :=
          (pic_record_latency 0 0 (iosub_tick s).pic).pending_bits &&&
            (mask32 ^^^ (1 <<< 0)) } := by
  have hcyc : (s.global_cycles + 1) % mod64 = s.global_cycles + 1 :=
    Nat.mod_eq_of_lt hw
  rw [iosub_tick_parts, timer_tick_fire _ _ _ he hp hc, if_pos hirq,
    pic_signal_irq_zero, hcyc]
  refine ⟨rfl, by simp, ?_⟩
  unfold iosub_ack_irq
  rw [if_neg (by decide : ¬(0 : Int) < 0)]
  have hev : ({ s.pic with
      pending_bits := s.pic.pending_bits ||| (1 <<< 0),
      last_event_cycle := fun i =>
        if i = 0 then s.global_cycles + 1
        else s.pic.last_event_cycle i } : PICDevice).last_event_cycle 0 =
      s.global_cycles + 1 := by simp
  rw [show (0 : Int).toNat = 0 from rfl,
    pic_ack_same_cycle _ _ hev (by omega)]

/-- Witness for C9_same_cycle_latency_zero on the configured harness state. -/
theorem C9_same_cycle_latency_zero_witness :
    (harnessInit.timer.enabled ≠ 0 ∧ harnessInit.timer.period ≠ 0 ∧
      harnessInit.timer.count = 0 ∧ harnessInit.timer.irq_enable ≠ 0 ∧
      harnessInit.global_cycles + 1 < mod64) ∧
    (iosub_tick harnessInit).global_cycles = harnessInit.global_cycles + 1 ∧
    (iosub_tick harnessInit).pic.last_event_cycle 0 =
      harnessInit.global_cycles + 1 ∧
    (iosub_ack_irq 0 (iosub_tick harnessInit)).2.pic =
      { pic_record_latency 0 0 (iosub_tick harnessInit).pic with
        pending_bits :=
          (pic_record_latency 0 0 (iosub_tick harnessInit).pic).pending_bits &&&
            (mask32 ^^^ (1 <<< 0)) } :=
  ⟨⟨by decide, by decide, by decide, by decide, by decide⟩,
   C9_same_cycle_latency_zero harnessInit (by decide) (by decide) (by decide)
     (by decide) (by decide)⟩

lemma mask32_eq : mask32 = 2 ^ 32 - 1 := by norm_num [mask32]

lemma ctzAux_spec (fuel : Nat) : ∀ n, n ≠ 0 → n < 2 ^ fuel →
    Nat.testBit n (ctzAux fuel n) = true ∧
    ∀ j, j < ctzAux fuel n → Nat.testBit n j = false := by
  induction fuel with
  | zero =>
    intro n h0 hlt
    rw [Nat.pow_zero] at hlt
    exact absurd (by omega : n = 0) h0
  | succ f ih =>
    intro n h0 hlt
    unfold ctzAux
    by_cases hodd : n % 2 = 1
    · rw [if_pos hodd]
      exact ⟨by simp [Nat.testBit_zero, hodd],
        fun j hj => absurd hj (Nat.not_lt_zero j)⟩
    · rw [if_neg hodd]
      have hne : n / 2 ≠ 0 := by omega
      have hlt2 : n / 2 < 2 ^ f := by
        rw [Nat.pow_succ] at hlt
        omega
      obtain ⟨h1, h2⟩ := ih (n / 2) hne hlt2
      constructor
      · rw [Nat.add_comm, Nat.testBit_add_one]
        exact h1
      · intro j hj
        cases j with
        | zero =>
          simp only [Nat.testBit_zero, decide_eq_false_iff_not]
          omega
        | succ j =>
          rw [Nat.testBit_add_one]
          exact h2 j (by omega)

lemma ctz32_spec (n : Nat) (h0 : n ≠ 0) (hlt : n < 2 ^ 32) :
    Nat.testBit n (ctz32 n) = true ∧
    ∀ j, j < ctz32 n → Nat.testBit n j = false :=
  ctzAux_spec 32 n h0 hlt

/-- C6: `irq_pending` computes pending AND NOT mask (bitwise below bit 32),
returns -1 exactly when that is zero, and otherwise returns the index of
its lowest set bit; with vectors 0 and 5 both pending and unmasked it
returns 0. -/
theorem C6_lowest_pending_vector (s : IoState)
    (hp : s.pic.pending_bits < 2 ^ 32) :
    (∀ i, i < 32 →
      (s.pic.pending_bits &&& (mask32 ^^^ s.pic.mask_bits)).testBit i =
        (s.pic.pending_bits.testBit i && !(s.pic.mask_bits.testBit i))) ∧
    (s.pic.pending_bits &&& (mask32 ^^^ s.pic.mask_bits) = 0 →
      iosub_irq_pending s = -1) ∧
    (s.pic.pending_bits &&& (mask32 ^^^ s.pic.mask_bits) ≠ 0 →
      iosub_irq_pending s =
        (ctz32 (s.pic.pending_bits &&& (mask32 ^^^ s.pic.mask_bits)) : Int) ∧
      (s.pic.pending_bits &&& (mask32 ^^^ s.pic.mask_bits)).testBit
        (ctz32 (s.pic.pending_bits &&& (mask32 ^^^ s.pic.mask_bits))) = true ∧
      (∀ j, j < ctz32 (s.pic.pending_bits &&& (mask32 ^^^ s.pic.mask_bits)) →
        (s.pic.pending_bits &&& (mask32 ^^^ s.pic.mask_bits)).testBit j =
          false)) ∧
    (s.pic.pending_bits.testBit 0 = true → s.pic.mask_bits.testBit 0 = false →
     s.pic.pending_bits.testBit 5 = true → s.pic.mask_bits.testBit 5 = false →
      iosub_irq_pending s = 0) := by
  have hval : iosub_irq_pending s =
      (if s.pic.pending_bits &&& (mask32 ^^^ s.pic.mask_bits) = 0 then (-1 : Int)
       else (ctz32 (s.pic.pending_bits &&& (mask32 ^^^ s.pic.mask_bits)) : Int)) :=
    rfl
  have hlt : s.pic.pending_bits &&& (mask32 ^^^ s.pic.mask_bits) < 2 ^ 32 :=
    lt_of_le_of_lt Nat.and_le_left hp
  have hbit : ∀ i, i < 32 →
      (s.pic.pending_bits &&& (mask32 ^^^ s.pic.mask_bits)).testBit i =
        (s.pic.pending_bits.testBit i && !(s.pic.mask_bits.testBit i)) := by
    intro i hi
    rw [mask32_eq]
    simp only [Nat.testBit_and, Nat.testBit_xor, Nat.testBit_two_pow_sub_one,
      hi, decide_True, Bool.true_xor]
  refine ⟨hbit, ?_, ?_, ?_⟩
  · intro h
    rw [hval, if_pos h]
  · intro h
    obtain ⟨h1, h2⟩ :=
      ctz32_spec (s.pic.pending_bits &&& (mask32 ^^^ s.pic.mask_bits)) h hlt
    exact ⟨by rw [hval, if_neg h], h1, h2⟩
  · intro p0 m0 p5 m5
    have hb0 : (s.pic.pending_bits &&& (mask32 ^^^ s.pic.mask_bits)).testBit 0 =
        true := by
      rw [hbit 0 (by norm_num), p0, m0]
      rfl
    have hne : s.pic.pending_bits &&& (mask32 ^^^ s.pic.mask_bits) ≠ 0 := by
      intro hz
      rw [hz] at hb0
      simp at hb0
    obtain ⟨h1, h2⟩ :=
      ctz32_spec (s.pic.pending_bits &&& (mask32 ^^^ s.pic.mask_bits)) hne hlt
    have hc0 : ctz32 (s.pic.pending_bits &&& (mask32 ^^^ s.pic.mask_bits)) = 0 := by
      by_contra hcz
      have hlow := h2 0 (by omega)
      rw [hb0] at hlow
      exact absurd hlow (by simp)
    rw [hval, if_neg hne, hc0]
    rfl

/-- Initial state with pending bits 0 and 5 set (value 33) and empty mask. -/
def c6_state : IoState :=
  { iosub_init_default with
    pic := { iosub_init_default.pic with pending_bits := 33 } }

/-- Witness for C6_lowest_pending_vector on pending = 33, mask = 0. -/
theorem C6_lowest_pending_vector_witness :
    c6_state.pic.pending_bits < 2 ^ 32 ∧
    (c6_state.pic.pending_bits.testBit 0 = true →
     c6_state.pic.mask_bits.testBit 0 = false →
     c6_state.pic.pending_bits.testBit 5 = true →
     c6_state.pic.mask_bits.testBit 5 = false →
      iosub_irq_pending c6_state = 0) :=
  ⟨by norm_num [c6_state, iosub_init_default],
   (C6_lowest_pending_vector c6_state
     (by norm_num [c6_state, iosub_init_default])).2.2.2⟩

lemma one_testBit (j : Nat) : (1 : Nat).testBit j = decide (j < 1) := by
  rw [show (1 : Nat) = 2 ^ 1 - 1 from rfl, Nat.testBit_two_pow_sub_one]
  norm_num

lemma three_testBit (j : Nat) : (3 : Nat).testBit j = decide (j < 2) := by
  rw [show (3 : Nat) = 2 ^ 2 - 1 from rfl, Nat.testBit_two_pow_sub_one]

lemma ctrl_readback (v : Nat) :
    ((v &&& 1) &&& 1) ||| ((((v >>> 1) &&& 1) &&& 1) <<< 1) = v &&& 3 := by
  apply Nat.eq_of_testBit_eq
  intro i
  simp only [Nat.testBit_or, Nat.testBit_and, Nat.testBit_shiftLeft,
    Nat.testBit_shiftRight, one_testBit, three_testBit]
  match i with
  | 0 => simp
  | 1 => simp
  | (k + 2) =>
    simp [show ¬(k + 2 < 1) from by omega, show (1 : Nat) ≤ k + 2 from by omega,
      show ¬(k + 2 < 2) from by omega, show ¬(k + 2 - 1 < 1) from by omega]

/-- C8: for CTRL, PERIOD, COUNT, STATUS and MASK, a 32-bit write followed by
a read of the same register returns the written value, except that STATUS
reads back only the low 8 bits and CTRL reads back only bits 0-1. -/
theorem C8_register_roundtrip (s : IoState) (v : Nat) (hv : v < 2 ^ 32) :
    iosub_read32 (iosub_write32 (TIMER_BASE + TIMER_OFF_CTRL) v s)
      (TIMER_BASE + TIMER_OFF_CTRL) = v &&& 3 ∧
    iosub_read32 (iosub_write32 (TIMER_BASE + TIMER_OFF_PERIOD) v s)
      (TIMER_BASE + TIMER_OFF_PERIOD) = v ∧
    iosub_read32 (iosub_write32 (TIMER_BASE + TIMER_OFF_COUNT) v s)
      (TIMER_BASE + TIMER_OFF_COUNT) = v ∧
    iosub_read32 (iosub_write32 (TIMER_BASE + TIMER_OFF_STATUS) v s)
      (TIMER_BASE + TIMER_OFF_STATUS) = v &&& 0xFF ∧
    iosub_read32 (iosub_write32 (PIC_BASE + PIC_OFF_MASK) v s)
      (PIC_BASE + PIC_OFF_MASK) = v := by
  refine ⟨?_, rfl, rfl, rfl, rfl⟩
  show ((v &&& 1) &&& 1) ||| ((((v >>> 1) &&& 1) &&& 1) <<< 1) = v &&& 3
  exact ctrl_readback v

/-- Witness for C8_register_roundtrip with value 0x12345678. -/
theorem C8_register_roundtrip_witness :
    (305419896 : Nat) < 2 ^ 32 ∧
    (iosub_read32
        (iosub_write32 (TIMER_BASE + TIMER_OFF_CTRL) 305419896 iosub_init_default)
        (TIMER_BASE + TIMER_OFF_CTRL) = 305419896 &&& 3 ∧
     iosub_read32
        (iosub_write32 (TIMER_BASE + TIMER_OFF_PERIOD) 305419896 iosub_init_default)
        (TIMER_BASE + TIMER_OFF_PERIOD) = 305419896 ∧
     iosub_read32
        (iosub_write32 (TIMER_BASE + TIMER_OFF_COUNT) 305419896 iosub_init_default)
        (TIMER_BASE + TIMER_OFF_COUNT) = 305419896 ∧
     iosub_read32
        (iosub_write32 (TIMER_BASE + TIMER_OFF_STATUS) 305419896 iosub_init_default)
        (TIMER_BASE + TIMER_OFF_STATUS) = 305419896 &&& 0xFF ∧
     iosub_read32
        (iosub_write32 (PIC_BASE + PIC_OFF_MASK) 305419896 iosub_init_default)
        (PIC_BASE + PIC_OFF_MASK) = 305419896) :=
  ⟨by norm_num,
   C8_register_roundtrip iosub_init_default 305419896 (by norm_num)⟩

lemma and_mask_of_lt (v b : Nat) (hv : v < 2 ^ b) : v &&& (2 ^ b - 1) = v := by
  apply Nat.eq_of_testBit_eq
  intro i
  simp only [Nat.testBit_and, Nat.testBit_two_pow_sub_one]
  by_cases hi : i < b
  · simp [hi]
  · have hvi : v.testBit i = false :=
      Nat.testBit_lt_two_pow
        (lt_of_lt_of_le hv (Nat.pow_le_pow_right (by norm_num) (by omega : b ≤ i)))
    simp [hi, hvi]

lemma shiftLeft_lt (v sh b : Nat) (hv : v < 2 ^ b) (hs : b + sh ≤ 32) :
    v <<< sh < 2 ^ 32 := by
  rw [Nat.shiftLeft_eq]
  calc v * 2 ^ sh < 2 ^ b * 2 ^ sh :=
        (Nat.mul_lt_mul_right (Nat.two_pow_pos sh)).mpr hv
    _ = 2 ^ (b + sh) := by rw [Nat.pow_add]
    _ ≤ 2 ^ 32 := Nat.pow_le_pow_right (by norm_num) hs

/-- The heart of C5: reading the PENDING word, replacing one lane, and
writing the result back through the write-1-to-clear port keeps only the
written lane of the old pending bits, intersected with the complement of
the written value. -/
lemma and_comp_or_clear (p m x : Nat) (hp : p < 2 ^ 32) (hx : x < 2 ^ 32) :
    p &&& (mask32 ^^^ ((p &&& (mask32 ^^^ m)) ||| x)) =
      (p &&& m) &&& (mask32 ^^^ x) := by
  rw [mask32_eq]
  apply Nat.eq_of_testBit_eq
  intro i
  simp only [Nat.testBit_and, Nat.testBit_xor, Nat.testBit_or,
    Nat.testBit_two_pow_sub_one]
  by_cases hi : i < 32
  · simp only [hi, decide_True, Bool.true_xor]
    cases hp1 : p.testBit i <;> cases hm1 : m.testBit i <;>
      cases hx1 : x.testBit i <;> rfl
  · have hpi : p.testBit i = false :=
      Nat.testBit_lt_two_pow
        (lt_of_lt_of_le hp (Nat.pow_le_pow_right (by norm_num) (by omega)))
    simp [hpi]

/-- C5: a write8 of v to byte k of the PENDING word leaves pending equal to
(old AND (0xFF << 8k)) AND NOT (v << 8k) — every pending bit outside the
written byte lane is cleared by the read-modify-write synthesis; write16
behaves analogously on 16-bit lanes. -/
theorem C5_pending_rmw_lanes (s : IoState) (k v h w : Nat) (hk : k < 4)
    (hv : v < 256) (hh : h < 2) (hw : w < 65536)
    (hp : s.pic.pending_bits < 2 ^ 32) :
    (iosub_write8 (PIC_BASE + PIC_OFF_PENDING + k) v s).pic.pending_bits =
      (s.pic.pending_bits &&& (0xFF <<< (8 * k))) &&&
        (mask32 ^^^ (v <<< (8 * k))) ∧
    (iosub_write16 (PIC_BASE + PIC_OFF_PENDING + 2 * h) w s).pic.pending_bits =
      (s.pic.pending_bits &&& (0xFFFF <<< (16 * h))) &&&
        (mask32 ^^^ (w <<< (16 * h))) := by
  have hv' : v &&& 255 = v := by
    rw [show (255 : Nat) = 2 ^ 8 - 1 from rfl]
    exact and_mask_of_lt v 8 hv
  have hw' : w &&& 65535 = w := by
    rw [show (65535 : Nat) = 2 ^ 16 - 1 from rfl]
    exact and_mask_of_lt w 16 hw
  constructor
  · interval_cases k
    · rw [show (iosub_write8 (PIC_BASE + PIC_OFF_PENDING + 0) v s).pic.pending_bits
          = s.pic.pending_bits &&& (mask32 ^^^
            ((s.pic.pending_bits &&& (mask32 ^^^ (0xFF <<< (8 * 0)))) |||
              ((v &&& 0xFF) <<< (8 * 0)))) from rfl, hv']
      exact and_comp_or_clear _ _ _ hp (shiftLeft_lt v (8 * 0) 8 hv (by norm_num))
    · rw [show (iosub_write8 (PIC_BASE + PIC_OFF_PENDING + 1) v s).pic.pending_bits
          = s.pic.pending_bits &&& (mask32 ^^^
            ((s.pic.pending_bits &&& (mask32 ^^^ (0xFF <<< (8 * 1)))) |||
              ((v &&& 0xFF) <<< (8 * 1)))) from rfl, hv']
      exact and_comp_or_clear _ _ _ hp (shiftLeft_lt v (8 * 1) 8 hv (by norm_num))
    · rw [show (iosub_write8 (PIC_BASE + PIC_OFF_PENDING + 2) v s).pic.pending_bits
          = s.pic.pending_bits &&& (mask32 ^^^
            ((s.pic.pending_bits &&& (mask32 ^^^ (0xFF <<< (8 * 2)))) |||
              ((v &&& 0xFF) <<< (8 * 2)))) from rfl, hv']
      exact and_comp_or_clear _ _ _ hp (shiftLeft_lt v (8 * 2) 8 hv (by norm_num))
    · rw [show (iosub_write8 (PIC_BASE + PIC_OFF_PENDING + 3) v s).pic.pending_bits
          = s.pic.pending_bits &&& (mask32 ^^^
            ((s.pic.pending_bits &&& (mask32 ^^^ (0xFF <<< (8 * 3)))) |||
              ((v &&& 0xFF) <<< (8 * 3)))) from rfl, hv']
      exact and_comp_or_clear _ _ _ hp (shiftLeft_lt v (8 * 3) 8 hv (by norm_num))
  · interval_cases h
    · rw [show (iosub_write16 (PIC_BASE + PIC_OFF_PENDING + 2 * 0) w s).pic.pending_bits
          = s.pic.pending_bits &&& (mask32 ^^^
            ((s.pic.pending_bits &&& (mask32 ^^^ (0xFFFF <<< (16 * 0)))) |||
              ((w &&& 0xFFFF) <<< (16 * 0)))) from rfl, hw']
      exact and_comp_or_clear _ _ _ hp (shiftLeft_lt w (16 * 0) 16 hw (by norm_num))
    · rw [show (iosub_write16 (PIC_BASE + PIC_OFF_PENDING + 2 * 1) w s).pic.pending_bits
          = s.pic.pending_bits &&& (mask32 ^^^
            ((s.pic.pending_bits &&& (mask32 ^^^ (0xFFFF <<< (16 * 1)))) |||
              ((w &&& 0xFFFF) <<< (16 * 1)))) from rfl, hw']
      exact and_comp_or_clear _ _ _ hp (shiftLeft_lt w (16 * 1) 16 hw (by norm_num))

/-- Witness for C5_pending_rmw_lanes at byte 1 / half-word 1 with all
pending bits initially set below bit 32. -/
theorem C5_pending_rmw_lanes_witness :
    ((1 : Nat) < 4 ∧ (0xAB : Nat) < 256 ∧ (1 : Nat) < 2 ∧
      (0xCDEF : Nat) < 65536 ∧ c6_state.pic.pending_bits < 2 ^ 32) ∧
    (iosub_write8 (PIC_BASE + PIC_OFF_PENDING + 1) 0xAB c6_state).pic.pending_bits =
      (c6_state.pic.pending_bits &&& (0xFF <<< (8 * 1))) &&&
        (mask32 ^^^ (0xAB <<< (8 * 1))) ∧
    (iosub_write16 (PIC_BASE + PIC_OFF_PENDING + 2 * 1) 0xCDEF c6_state).pic.pending_bits =
      (c6_state.pic.pending_bits &&& (0xFFFF <<< (16 * 1))) &&&
        (mask32 ^^^ (0xCDEF <<< (16 * 1))) :=
  ⟨⟨by norm_num, by norm_num, by norm_num, by norm_num,
    by norm_num [c6_state, iosub_init_default]⟩,
   C5_pending_rmw_lanes c6_state 1 0xAB 1 0xCDEF (by norm_num) (by norm_num)
     (by norm_num) (by norm_num) (by norm_num [c6_state, iosub_init_default])⟩

lemma pic_record_latency_samples_ne (vec L : Nat) (p : PICDevice) (i : Nat)
    (hne : i ≠ vec) :
    (pic_record_latency vec L p).samples_count i = p.samples_count i ∧
    (pic_record_latency vec L p).samples_mean i = p.samples_mean i ∧
    (pic_record_latency vec L p).samples_m2 i = p.samples_m2 i := by
  unfold pic_record_latency
  split
  · exact ⟨rfl, rfl, rfl⟩
  · simp [hne]

lemma pic_ack_samples_high (vec c : Nat) (p : PICDevice) (i : Nat)
    (hi : 32 ≤ i) :
    (pic_ack vec c p).samples_count i = p.samples_count i ∧
    (pic_ack vec c p).samples_mean i = p.samples_mean i ∧
    (pic_ack vec c p).samples_m2 i = p.samples_m2 i := by
  unfold pic_ack
  by_cases hv : 32 ≤ vec
  · rw [if_pos hv]
    exact ⟨rfl, rfl, rfl⟩
  · rw [if_neg hv]
    by_cases hev : p.last_event_cycle vec = 0
    · simp [hev]
    · simp only [hev, ne_eq, not_false_eq_true, if_true]
      exact pic_record_latency_samples_ne vec _ p i (by omega)

lemma mmio_write32_samples_high (addr val : Nat) (s : IoState) (i : Nat)
    (hi : 32 ≤ i) :
    (mmio_write32 addr val s).pic.samples_count i = s.pic.samples_count i ∧
    (mmio_write32 addr val s).pic.samples_mean i = s.pic.samples_mean i ∧
    (mmio_write32 addr val s).pic.samples_m2 i = s.pic.samples_m2 i := by
  simp only [mmio_write32]
  split_ifs <;>
    first
    | exact ⟨rfl, rfl, rfl⟩
    | exact pic_ack_samples_high _ _ _ i hi

lemma iosub_write8_samples_high (addr val : Nat) (s : IoState) (i : Nat)
    (hi : 32 ≤ i) :
    (iosub_write8 addr val s).pic.samples_count i = s.pic.samples_count i ∧
    (iosub_write8 addr val s).pic.samples_mean i = s.pic.samples_mean i ∧
    (iosub_write8 addr val s).pic.samples_m2 i = s.pic.samples_m2 i := by
  simp only [iosub_write8]
  exact mmio_write32_samples_high _ _ _ i hi

lemma iosub_write16_samples_high (addr val : Nat) (s : IoState) (i : Nat)
    (hi : 32 ≤ i) :
    (iosub_write16 addr val s).pic.samples_count i = s.pic.samples_count i ∧
    (iosub_write16 addr val s).pic.samples_mean i = s.pic.samples_mean i ∧
    (iosub_write16 addr val s).pic.samples_m2 i = s.pic.samples_m2 i := by
  simp only [iosub_write16]
  exact mmio_write32_samples_high _ _ _ i hi

lemma iosub_tick_samples_high (s : IoState) (i : Nat) (hi : 32 ≤ i) :
    (iosub_tick s).pic.samples_count i = s.pic.samples_count i ∧
    (iosub_tick s).pic.samples_mean i = s.pic.samples_mean i ∧
    (iosub_tick s).pic.samples_m2 i = s.pic.samples_m2 i := by
  rw [iosub_tick_parts]
  unfold timer_tick
  split_ifs <;> exact ⟨rfl, rfl, rfl⟩

lemma iosub_ack_irq_samples_high (v : Int) (s : IoState) (i : Nat)
    (hi : 32 ≤ i) :
    ((iosub_ack_irq v s).2).pic.samples_count i = s.pic.samples_count i ∧
    ((iosub_ack_irq v s).2).pic.samples_mean i = s.pic.samples_mean i ∧
    ((iosub_ack_irq v s).2).pic.samples_m2 i = s.pic.samples_m2 i := by
  unfold iosub_ack_irq
  split_ifs
  · exact ⟨rfl, rfl, rfl⟩
  · exact pic_ack_samples_high _ _ _ i hi

/-- States reachable from `iosub_init_default` through the public
I/O-subsystem API (reads are pure and change nothing). -/
inductive Reachable : IoState → Prop where
  | init : Reachable iosub_init_default
  | tick {s : IoState} : Reachable s → Reachable (iosub_tick s)
  | write8 {s : IoState} (addr val : Nat) :
      Reachable s → Reachable (iosub_write8 addr val s)
  | write16 {s : IoState} (addr val : Nat) :
      Reachable s → Reachable (iosub_write16 addr val s)
  | write32 {s : IoState} (addr val : Nat) :
      Reachable s → Reachable (iosub_write32 addr val s)
  | ack {s : IoState} (v : Int) :
      Reachable s → Reachable ((iosub_ack_irq v s).2)

/-- In every reachable state the statistics accumulators of vectors 32..63
are still zero: `pic_ack` guards at 32, so `pic_record_latency` is never
invoked above 31 through the public API. -/
lemma reachable_samples_high {s : IoState} (hs : Reachable s) :
    ∀ i, 32 ≤ i → s.pic.samples_count i = 0 ∧ s.pic.samples_mean i = 0 ∧
      s.pic.samples_m2 i = 0 := by
  induction hs with
  | init => exact fun i hi => ⟨rfl, rfl, rfl⟩
  | tick h ih =>
    intro i hi
    obtain ⟨a, b, c⟩ := ih i hi
    obtain ⟨d, e, f⟩ := iosub_tick_samples_high _ i hi
    exact ⟨d.trans a, e.trans b, f.trans c⟩
  | write8 addr val h ih =>
    intro i hi
    obtain ⟨a, b, c⟩ := ih i hi
    obtain ⟨d, e, f⟩ := iosub_write8_samples_high addr val _ i hi
    exact ⟨d.trans a, e.trans b, f.trans c⟩
  | write16 addr val h ih =>
    intro i hi
    obtain ⟨a, b, c⟩ := ih i hi
    obtain ⟨d, e, f⟩ := iosub_write16_samples_high addr val _ i hi
    exact ⟨d.trans a, e.trans b, f.trans c⟩
  | write32 addr val h ih =>
    intro i hi
    obtain ⟨a, b, c⟩ := ih i hi
    obtain ⟨d, e, f⟩ := mmio_write32_samples_high addr val _ i hi
    exact ⟨d.trans a, e.trans b, f.trans c⟩
  | ack v h ih =>
    intro i hi
    obtain ⟨a, b, c⟩ := ih i hi
    obtain ⟨d, e, f⟩ := iosub_ack_irq_samples_high v _ i hi
    exact ⟨d.trans a, e.trans b, f.trans c⟩

/-- C7: the stats query returns (count, mean, variance) with variance =
running_sum_sq_dev / (count - 1) when count > 1 and 0 otherwise; for every
out-of-range vector (≥ 32) it returns (0, 0, 0) in every reachable state —
by the array guard for ≥ 64 and by the invariant that vectors 32..63 never
accumulate samples. -/
theorem C7_stats_query (s : IoState) (v : Nat) (hs : Reachable s) :
    (v < 64 →
      iosub_get_irq_stats s v =
        (s.pic.samples_count v, s.pic.samples_mean v,
         if 1 < s.pic.samples_count v then
           s.pic.samples_m2 v / ((s.pic.samples_count v - 1 : Nat) : ℚ)
         else 0)) ∧
    (32 ≤ v → iosub_get_irq_stats s v = (0, 0, 0)) := by
  constructor
  · intro hv
    unfold iosub_get_irq_stats
    rw [if_neg (by omega : ¬64 ≤ v)]
  · intro hv
    by_cases h64 : 64 ≤ v
    · unfold iosub_get_irq_stats
      rw [if_pos h64]
    · obtain ⟨a, b, c⟩ := reachable_samples_high hs v hv
      unfold iosub_get_irq_stats
      rw [if_neg h64, a, b, c]
      norm_num

/-- Witness for C7_stats_query at vector 40 on the initial state. -/
theorem C7_stats_query_witness :
    ((40 : Nat) < 64 ∧
      iosub_get_irq_stats iosub_init_default 40 =
        (iosub_init_default.pic.samples_count 40,
         iosub_init_default.pic.samples_mean 40,
         if 1 < iosub_init_default.pic.samples_count 40 then
           iosub_init_default.pic.samples_m2 40 /
             ((iosub_init_default.pic.samples_count 40 - 1 : Nat) : ℚ)
         else 0)) ∧
    ((32 : Nat) ≤ 40 ∧ iosub_get_irq_stats iosub_init_default 40 = (0, 0, 0)) :=
  ⟨⟨by norm_num,
    (C7_stats_query iosub_init_default 40 Reachable.init).1 (by norm_num)⟩,
   ⟨by norm_num,
    (C7_stats_query iosub_init_default 40 Reachable.init).2 (by norm_num)⟩⟩
